import Mathlib

/-!
Verification of the google_auth_proxy authentication engine.

Shallow embedding of the Go sources of `t-yuki/google_auth_proxy`:

* `htpasswd_proxy.go` — the delegated credential validator (`HtpasswdProxy`)
  with its TTL-bounded credential cache;
* the main proxy file — `OauthProxy` with `GetLoginURL`, `ProcessCookie`,
  `ServeHTTP`, `CheckBasicAuth` and the header-forwarding step.

Conventions of the embedding:

* Go `time.Time` values are modelled as `Int` Unix seconds (the refresh
  comparison in the source compares `Unix()` values, i.e. whole seconds).
  The Go zero `time.Time` corresponds to `goZeroUnix`.
* Go maps are association lists; a `nil` map is `Option.none`.
  Reading a missing key yields the zero value, writing to a `nil` map panics.
* Network effects are parameters: the delegated validation endpoint is a
  function `String → String → Option Nat` giving the HTTP status of the
  probe, `none` standing for a transport-level error of `Do`.
* A Go runtime panic is an explicit `GoPanic` error value.
-/

namespace GoogleAuthProxy

/-- Unix seconds of the zero Go `time.Time` (January 1, year 1 UTC). -/
def goZeroUnix : Int := -62135596800

/-- The credential cache map of `HtpasswdProxy`: key `user ++ ":" ++ password`
mapped to the Unix time the pair was last validated.  An association list
models the Go map `map[string]time.Time`. -/
abbrev CredCache := List (String × Int)

/-- Go map read with zero-value default: a missing key yields the zero time. -/
def cacheGet (m : CredCache) (k : String) : Int :=
  match m.find? (fun e => e.1 == k) with
  | some e => e.2
  | none => goZeroUnix

/-- Go map assignment `m[k] = v`: replaces the binding of `k` when present,
otherwise appends it (insertion order is irrelevant to lookups). -/
def cacheInsert (m : CredCache) (k : String) (v : Int) : CredCache :=
  if m.any (fun e => e.1 == k) then
    m.map (fun e => if e.1 == k then (k, v) else e)
  else m ++ [(k, v)]

/-- Go runtime panics that the modelled code can hit. -/
inductive GoPanic where
  /-- `res.Body.Close()` with `res == nil` after `Do` returned an error. -/
  | nilResponse
  /-- assignment to a `nil` map. -/
  | nilMapWrite
deriving Repr, DecidableEq

/-- `HtpasswdProxy.cachedValidate`: under the mutex, lazily initialise the
map when `nil` and reset it whole when it holds more than 100 entries, then
look the pair up and report whether its entry is younger than one minute
(`t.Add(time.Minute).After(time.Now())`, a strict comparison).  Returns the
hit flag together with the map the proxy now holds (never `nil` afterwards). -/
def cachedValidate (cache : Option CredCache) (user password : String)
    (now : Int) : Bool × CredCache :=
  let m : CredCache :=
    match cache with
    | none => []
    | some m => if m.length > 100 then [] else m
  let t := cacheGet m (user ++ ":" ++ password)
  (decide (t + 60 > now), m)

/-- `HtpasswdProxy.putValidateCache`: store `now` for the pair.  Writing to a
`nil` map is a Go panic, modelled by `none`. -/
def putValidateCache (cache : Option CredCache) (user password : String)
    (now : Int) : Option CredCache :=
  match cache with
  | none => none
  | some m => some (cacheInsert m (user ++ ":" ++ password) now)

/-- `HtpasswdProxy.Validate`: consult the cache; on a miss issue one Basic-Auth
probe to the endpoint.  The source logs a transport error but then
unconditionally runs `res.Body.Close()`, which dereferences the `nil`
response — modelled as the `nilResponse` panic.  A 200 status caches the pair
and yields `true`; any other status yields `false` without caching.
The result carries the decision, the cache afterwards and the number of
probes issued (0 on a cache hit, 1 otherwise). -/
def Validate (cache : Option CredCache) (endpoint : String → String → Option Nat)
    (user password : String) (now : Int) :
    Except GoPanic (Bool × Option CredCache × Nat) :=
  let hit := cachedValidate cache user password now
  if hit.1 then .ok (true, some hit.2, 0)
  else
    match endpoint user password with
    | none => .error .nilResponse
    | some status =>
      if status == 200 then
        match putValidateCache (some hit.2) user password now with
        | none => .error .nilMapWrite
        | some m2 => .ok (true, some m2, 1)
      else .ok (false, some hit.2, 1)

/-- The map held by `cachedValidate` after the lazy-init/overflow step never
exceeds 100 entries. -/
theorem cachedValidate_length_le (cache : Option CredCache)
    (user password : String) (now : Int) :
    (cachedValidate cache user password now).2.length ≤ 100 := by
  cases cache with
  | none => simp [cachedValidate]
  | some m =>
    simp only [cachedValidate]
    by_cases h : m.length > 100
    · simp [h]
    · simp [h]; omega

/-- A Go map assignment grows the map by at most one entry. -/
theorem cacheInsert_length_le (m : CredCache) (k : String) (v : Int) :
    (cacheInsert m k v).length ≤ m.length + 1 := by
  unfold cacheInsert
  by_cases h : m.any (fun e => e.1 == k)
  · simp [h]
  · simp [h]

/-- **C1** (code bug evidence).  On a cache miss whose probe fails at the
transport level (`Do` returns an error, hence a `nil` response), `Validate`
panics closing the `nil` response body instead of returning `false`; a
non-200 response, by contrast, does degrade to `false` as specified. -/
theorem validate_transport_error_panics :
    Validate none (fun _ _ => none) "u" "p" 0 = .error .nilResponse ∧
    Validate none (fun _ _ => some 401) "u" "p" 0 = .ok (false, some [], 1) := by
  constructor <;> rfl

/-- Unfolding equation of `cachedValidate` when the held map is kept. -/
theorem cachedValidate_keep {m : CredCache} (user password : String) (now : Int)
    (h : ¬ m.length > 100) :
    cachedValidate (some m) user password now =
      (decide (cacheGet m (user ++ ":" ++ password) + 60 > now), m) := by
  simp [cachedValidate, h]

/-- Unfolding equation of `cachedValidate` when the held map overflows. -/
theorem cachedValidate_reset {m : CredCache} (user password : String) (now : Int)
    (h : m.length > 100) :
    cachedValidate (some m) user password now =
      (decide (goZeroUnix + 60 > now), []) := by
  simp [cachedValidate, h, cacheGet]

/-- `cacheGet` of a found entry. -/
theorem cacheGet_found {m : CredCache} {k : String} {e : String × Int}
    (h : m.find? (fun x => x.1 == k) = some e) : cacheGet m k = e.2 := by
  simp [cacheGet, h]

/-- `cacheGet` of an absent key is the zero time. -/
theorem cacheGet_absent {m : CredCache} {k : String}
    (h : m.find? (fun x => x.1 == k) = none) : cacheGet m k = goZeroUnix := by
  simp [cacheGet, h]

/-- **C5**.  `cachedValidate` treats a cache entry older than the one-minute
TTL as a miss (same `false` answer as an absent key), and a cache holding
more than 100 entries is reset whole to empty by the next lookup, which then
misses regardless of what the cache held. -/
theorem cachedValidate_ttl_and_overflow :
    ∀ (m : CredCache) (user password : String) (now : Int) (e : String × Int),
      (m.length ≤ 100 →
        m.find? (fun x => x.1 == user ++ ":" ++ password) = some e →
        e.2 + 60 ≤ now →
        (cachedValidate (some m) user password now).1 = false) ∧
      (m.find? (fun x => x.1 == user ++ ":" ++ password) = none →
        0 ≤ now →
        (cachedValidate (some m) user password now).1 = false) ∧
      (m.length > 100 →
        (cachedValidate (some m) user password now).2 = [] ∧
        (0 ≤ now → (cachedValidate (some m) user password now).1 = false)) := by
  intro m user password now e
  refine ⟨?_, ?_, ?_⟩
  · intro hlen hfind hstale
    rw [cachedValidate_keep user password now (by omega), cacheGet_found hfind]
    exact decide_eq_false (by omega)
  · intro hfind hnow
    by_cases h : m.length > 100
    · rw [cachedValidate_reset user password now h]
      exact decide_eq_false (by unfold goZeroUnix; omega)
    · rw [cachedValidate_keep user password now h, cacheGet_absent hfind]
      exact decide_eq_false (by unfold goZeroUnix; omega)
  · intro hlen
    rw [cachedValidate_reset user password now hlen]
    exact ⟨rfl, fun hnow => decide_eq_false (by unfold goZeroUnix; omega)⟩

/-- **C5** witness: a concrete entry validated at time 0 is stale at
time 1000 and the lookup misses. -/
theorem cachedValidate_ttl_witness :
    (cachedValidate (some [("u:p", 0)]) "u" "p" 1000).1 = false :=
  (cachedValidate_ttl_and_overflow [("u:p", 0)] "u" "p" 1000 ("u:p", 0)).1
    (by decide) (by decide) (by decide)

/-- The endpoint of the test of the repository, `TestHtpasswdProxy`: it accepts
exactly the pair `("testuser", "asdf")` with 200 and answers 401 otherwise. -/
def testEndpoint : String → String → Option Nat :=
  fun user pass => if user == "testuser" && pass == "asdf" then some 200 else some 401

/-- **C6**.  The end-to-end scenario of the test of the repository: a first
validation of the good pair probes once and caches; a bad pair probes once
and is not cached; repeating the good pair within the TTL hits the cache with
zero probes (total probes over the scenario: 1 + 1 + 0 = 2).  The final
conjunct is the general fact behind "failed validations are never cached":
a `false` result leaves the cache exactly as the lookup left it (no
insertion) and always costs one probe. -/
theorem validate_scenario :
    (Validate none testEndpoint "testuser" "asdf" 1000 =
      .ok (true, some [("testuser:asdf", 1000)], 1)) ∧
    (Validate (some [("testuser:asdf", 1000)]) testEndpoint "notfound" "asdf" 1000 =
      .ok (false, some [("testuser:asdf", 1000)], 1)) ∧
    (Validate (some [("testuser:asdf", 1000)]) testEndpoint "testuser" "asdf" 1000 =
      .ok (true, some [("testuser:asdf", 1000)], 0)) ∧
    (∀ (cache : Option CredCache) (ep : String → String → Option Nat)
      (user password : String) (now : Int) (m : Option CredCache) (n : Nat),
      Validate cache ep user password now = .ok (false, m, n) →
      m = some (cachedValidate cache user password now).2 ∧ n = 1) := by
  refine ⟨rfl, rfl, rfl, ?_⟩
  intro cache ep user password now m n h
  simp only [Validate] at h
  split at h
  · simp at h
  · split at h
    · simp at h
    · split at h
      · simp only [putValidateCache] at h
        simp at h
      · simp only [Except.ok.injEq, Prod.mk.injEq] at h
        exact ⟨h.2.1.symm, h.2.2.symm⟩

/-- **C6** witness: the non-caching conjunct applied to a concrete failing
validation. -/
theorem validate_scenario_witness :
    some ([] : CredCache) = some (cachedValidate none "a" "b" 0).2 ∧
    (1 : Nat) = 1 :=
  validate_scenario.2.2.2 none (fun _ _ => some 404) "a" "b" 0 (some []) 1 rfl

/-- **C9**.  Whenever the probe endpoint answers (no transport panic),
`Validate` completes without the nil-map-write panic — `cachedValidate`
always leaves a non-nil map before `putValidateCache` runs — and the cache it
leaves behind holds at most 101 entries (at most 100 survive the lookup-time
overflow check, plus at most one insertion).  The nil-map panic is unreachable
even when the probe itself panics. -/
theorem validate_cache_bounded :
    ∀ (cache : Option CredCache) (ep : String → String → Option Nat)
      (user password : String) (now : Int),
      (∀ status, ep user password = some status →
        ∃ b m n, Validate cache ep user password now = .ok (b, some m, n) ∧
          m.length ≤ 101) ∧
      Validate cache ep user password now ≠ .error .nilMapWrite := by
  intro cache ep user password now
  have hlen := cachedValidate_length_le cache user password now
  constructor
  · intro status hep
    by_cases hhit : (cachedValidate cache user password now).1
    · exact ⟨true, (cachedValidate cache user password now).2, 0,
        by simp [Validate, hhit], by omega⟩
    · by_cases hs : status == 200
      · refine ⟨true, cacheInsert (cachedValidate cache user password now).2
          (user ++ ":" ++ password) now, 1,
          by simp [Validate, hhit, hep, hs, putValidateCache], ?_⟩
        have := cacheInsert_length_le (cachedValidate cache user password now).2
          (user ++ ":" ++ password) now
        omega
      · exact ⟨false, (cachedValidate cache user password now).2, 1,
          by simp [Validate, hhit, hep, hs], by omega⟩
  · intro hcontra
    simp only [Validate] at hcontra
    split at hcontra
    · simp at hcontra
    · split at hcontra
      · simp at hcontra
      · split at hcontra
        · simp only [putValidateCache] at hcontra
          simp at hcontra
        · simp at hcontra

/-- **C9** witness: a concrete run through the insertion path. -/
theorem validate_cache_bounded_witness :
    ∃ b m n, Validate none (fun _ _ => some 200) "u" "p" 0 = .ok (b, some m, n) ∧
      m.length ≤ 101 :=
  (validate_cache_bounded none (fun _ _ => some 200) "u" "p" 0).1 200 rfl

/-! ## The OauthProxy -/

/-- The fields of a Go `url.URL` that the proxy manipulates (no query, user
or fragment parts occur on the URLs involved). -/
structure URLData where
  scheme : String
  host : String
  path : String
deriving Repr, DecidableEq

/-- Rendering of `url.URL.String` for URLs made of scheme, host and path. -/
def urlString (u : URLData) : String :=
  if u.scheme ≠ "" then u.scheme ++ "://" ++ u.host ++ u.path
  else if u.host ≠ "" then "//" ++ u.host ++ u.path
  else u.path

/-- The `OauthProxy` record.  Network collaborators (the OAuth provider) and
the cookie codec (`validateCookie`, `parseCookieValue`, `buildCookieValue`
live in a repository file that is not part of the given sources) are function
fields, closed over seed and cipher exactly as the Go code closes over
`p.CookieSeed` and `p.AesCipher`. -/
structure OauthProxy where
  CookieSecure : Bool
  CookieExpire : Int
  CookieRefresh : Int
  Validator : String → Bool
  redirectUrl : URLData
  oauthLoginUrl : URLData
  oauthScope : String
  clientID : String
  HtpasswdValidator : Option (String → String → Bool)
  PassBasicAuth : Bool
  PassAccessToken : Bool
  compiledRegex : List (String → Bool)
  providerRedeem : String → String → Except String (String × String)
  providerGetEmail : String → String → Except String String
  providerValidateToken : String → Bool
  validateCookieFn : String → Option (String × Int)
  parseCookieValueFn : String → Except String (String × String × String)
  buildCookieValueFn : String → String → String

/-- The fixed paths of the HTTP surface. -/
def robotsPath : String := "/robots.txt"

/-- Diagnostic ping path. -/
def pingPath : String := "/ping"

/-- Manual sign-in path. -/
def signInPath : String := "/oauth2/sign_in"

/-- OAuth start path. -/
def oauthStartPath : String := "/oauth2/start"

/-- OAuth callback path. -/
def oauthCallbackPath : String := "/oauth2/callback"

/-- `OauthProxy.GetRedirectUrl`: the configured redirect URL, defaulting its
host to the request host (and its scheme per `CookieSecure`) when the
configuration left the host empty. -/
def GetRedirectUrl (p : OauthProxy) (host : String) : String :=
  if p.redirectUrl.host ≠ "" then urlString p.redirectUrl
  else
    let scheme :=
      if p.redirectUrl.scheme = "" then
        if p.CookieSecure then "https" else "http"
      else p.redirectUrl.scheme
    urlString { scheme := scheme, host := host, path := p.redirectUrl.path }

/-- Go `strings.HasPrefix`. -/
def hasPrefixGo (s pre : String) : Bool :=
  pre.toList.isPrefixOf s.toList

/-- The query parameters `OauthProxy.GetLoginURL` adds to the provider login
URL, in the order of the `params.Add` calls of the source (`Values.Encode`
then renders them sorted by key; only the key/value multiset matters here).
The `state` parameter is added exactly under `strings.HasPrefix(redirect, "/")`. -/
def GetLoginURLParams (p : OauthProxy) (host redirect : String) :
    List (String × String) :=
  [("redirect_uri", GetRedirectUrl p host),
   ("approval_prompt", "force"),
   ("scope", p.oauthScope),
   ("client_id", p.clientID),
   ("response_type", "code")] ++
  (if hasPrefixGo redirect "/" then [("state", redirect)] else [])

/-- Uppercase hexadecimal digit. -/
def hexDigit (n : Nat) : Char :=
  "0123456789ABCDEF".toList.getD n '0'

/-- Go `url.QueryEscape` on one character (ASCII range): unreserved
characters stay, space becomes `+`, everything else is percent-encoded. -/
def queryEscapeChar (c : Char) : List Char :=
  if c.isAlphanum ∨ c = '-' ∨ c = '_' ∨ c = '.' ∨ c = '~' then [c]
  else if c = ' ' then ['+']
  else ['%', hexDigit (c.toNat / 16 % 16), hexDigit (c.toNat % 16)]

/-- Go `url.QueryEscape` of a string. -/
def queryEscape (s : String) : String :=
  String.mk (s.toList.flatMap queryEscapeChar)

/-- Go `url.Values.Encode`: parameters sorted by key, each rendered as
`key=value` with both sides query-escaped, joined with `&`. -/
def valuesEncode (params : List (String × String)) : String :=
  String.intercalate "&"
    ((params.mergeSort (fun a b => a.1 ≤ b.1)).map
      (fun kv => queryEscape kv.1 ++ "=" ++ queryEscape kv.2))

/-- `OauthProxy.GetLoginURL`: the provider login URL with the encoded
parameter set of `GetLoginURLParams`. -/
def GetLoginURL (p : OauthProxy) (host redirect : String) : String :=
  urlString p.oauthLoginUrl ++ "?" ++ valuesEncode (GetLoginURLParams p host redirect)

/-- Comparator written from the words of the claim and spec, not from the
source: a same-site relative path is a path-absolute reference — it begins
with a slash but is not a scheme-relative (network-path) reference beginning
with a double slash, which a browser would resolve to a foreign host. -/
def specSameSiteRelative (s : String) : Bool :=
  hasPrefixGo s "/" && !(hasPrefixGo s "//")

/-- An inbound HTTP request, reduced to the parts the proxy inspects.
`form?` is the result of `req.ParseForm` (`none` models a parse error);
`cookie?` is the value of the session cookie when present;
`authHeader` is the `Authorization` header as a byte/character list. -/
structure Request where
  method : String
  path : String
  host : String
  form? : Option (List (String × String))
  cookie? : Option String
  authHeader : List Char

/-- `req.FormValue`: first value of the key, empty string when absent. -/
def formGet (form : List (String × String)) (k : String) : String :=
  match form.find? (fun e => e.1 == k) with
  | some e => e.2
  | none => ""

/-- `OauthProxy.GetRedirect`: parse the form, then the `rd` value with
default `/`. -/
def GetRedirect (req : Request) : Except String String :=
  match req.form? with
  | none => .error "form parse error"
  | some form =>
    let redirect := formGet form "rd"
    .ok (if redirect = "" then "/" else redirect)

/-- `OauthProxy.ManualSignIn`: POST with a configured delegated validator;
empty username fails fast; otherwise the validator decides. -/
def ManualSignIn (p : OauthProxy) (req : Request) : String × Bool :=
  match p.HtpasswdValidator with
  | none => ("", false)
  | some validator =>
    if req.method ≠ "POST" then ("", false)
    else
      let form := req.form?.getD []
      let user := formGet form "username"
      let passwd := formGet form "password"
      if user = "" then ("", false)
      else if validator user passwd then (user, true)
      else ("", false)

/-- `OauthProxy.redeemCode`: reject an empty code, redeem it with the
provider, then resolve the email address; result `(access_token, email)`. -/
def redeemCode (p : OauthProxy) (host code : String) :
    Except String (String × String) :=
  if code = "" then .error "missing code"
  else
    match p.providerRedeem (GetRedirectUrl p host) code with
    | .error e => .error e
    | .ok (body, accessToken) =>
      match p.providerGetEmail body accessToken with
      | .error e => .error e
      | .ok email => .ok (accessToken, email)

/-- Result of `OauthProxy.ProcessCookie`, with two instrumentation flags:
`revalidated` records that the refresh branch queried the Validator and the
provider, `reissued` that `SetCookie` re-sent a fresh cookie. -/
structure CookieResult where
  email : String
  user : String
  accessToken : String
  ok : Bool
  revalidated : Bool
  reissued : Bool
deriving Repr, DecidableEq

/-- The refresh tail of `ProcessCookie` (lines after the `err` check, which
run whenever `err == nil`): with a nonzero `CookieRefresh`, compare
`now + CookieRefresh` against `timestamp + CookieExpire` on Unix seconds and,
past the threshold, overwrite `ok` with the verdict of the Validator and the
provider token check, re-sending the cookie on success. -/
def refreshStep (p : OauthProxy) (email user accessToken : String) (ok0 : Bool)
    (timestamp now : Int) : CookieResult :=
  if p.CookieRefresh ≠ 0 then
    let expires := timestamp + p.CookieExpire
    let threshold := now + p.CookieRefresh
    if threshold > expires then
      let ok2 := p.Validator email && p.providerValidateToken accessToken
      ⟨email, user, accessToken, ok2, true, ok2⟩
    else ⟨email, user, accessToken, ok0, false, false⟩
  else ⟨email, user, accessToken, ok0, false, false⟩

/-- `OauthProxy.ProcessCookie`.  A missing cookie is a `req.Cookie` error
(`ok = false`, no refresh).  A failed `validateCookie` leaves the zero
timestamp and empty identity but `err` stays `nil`, so the refresh branch
still runs.  A `parseCookieValue` error sets `ok = false` and skips refresh. -/
def ProcessCookie (p : OauthProxy) (cookie? : Option String) (now : Int) :
    CookieResult :=
  match cookie? with
  | none => ⟨"", "", "", false, false, false⟩
  | some c =>
    match p.validateCookieFn c with
    | none => refreshStep p "" "" "" false goZeroUnix now
    | some (value, timestamp) =>
      match p.parseCookieValueFn value with
      | .error _ => ⟨"", "", "", false, false, false⟩
      | .ok (email, user, accessToken) =>
        refreshStep p email user accessToken true timestamp now

/-! ## Standard base64 (Go `encoding/base64` StdEncoding) -/

/-- The standard base64 alphabet. -/
def b64Alphabet : List Char :=
  "ABCDEFGHIJKLMNOPQRSTUVWXYZabcdefghijklmnopqrstuvwxyz0123456789+/".toList

/-- Value of a base64 digit, `none` for characters outside the alphabet. -/
def b64CharVal (ch : Char) : Option Nat :=
  b64Alphabet.findIdx? (fun c => c == ch)

/-- Character of a 6-bit value. -/
def b64Char (n : Nat) : Char :=
  b64Alphabet.getD n 'A'

/-- Standard base64 encoding of a byte list, with `=` padding. -/
def encodeB64 : List Nat → List Char
  | [] => []
  | [b0] => [b64Char (b0 / 4), b64Char (b0 % 4 * 16), '=', '=']
  | [b0, b1] => [b64Char (b0 / 4), b64Char (b0 % 4 * 16 + b1 / 16),
      b64Char (b1 % 16 * 4), '=']
  | b0 :: b1 :: b2 :: rest =>
    [b64Char (b0 / 4), b64Char (b0 % 4 * 16 + b1 / 16),
     b64Char (b1 % 16 * 4 + b2 / 64), b64Char (b2 % 64)] ++ encodeB64 rest

/-- Decoding of four-character base64 quanta.  Padding (`=`) may occur only
as the last one or two characters of the final quantum; the input length must
be a multiple of four; unused trailing bits are ignored, as the non-strict
Go `StdEncoding` does. -/
def decodeB64Quanta : List Char → Option (List Nat)
  | [] => some []
  | c0 :: c1 :: c2 :: c3 :: rest =>
    match b64CharVal c0, b64CharVal c1 with
    | some v0, some v1 =>
      if c2 = '=' then
        if c3 = '=' ∧ rest = [] then some [v0 * 4 + v1 / 16] else none
      else
        match b64CharVal c2 with
        | some v2 =>
          if c3 = '=' then
            if rest = [] then some [v0 * 4 + v1 / 16, v1 % 16 * 16 + v2 / 4]
            else none
          else
            match b64CharVal c3 with
            | some v3 =>
              (decodeB64Quanta rest).map
                (fun bs => (v0 * 4 + v1 / 16) :: (v1 % 16 * 16 + v2 / 4) ::
                  (v2 % 4 * 64 + v3) :: bs)
            | none => none
        | none => none
    | _, _ => none
  | _ => none

/-- Go `base64.StdEncoding.DecodeString`: carriage returns and newlines are
skipped wherever they occur, then the input is decoded in four-character
quanta. -/
def decodeB64 (s : List Char) : Option (List Nat) :=
  decodeB64Quanta (s.filter (fun c => ¬ (c = '\r' ∨ c = '\n')))

/-- Go `string(b)` for a decoded byte list (byte-transparent for the ASCII
data these claims exercise). -/
def natsToString (l : List Nat) : String :=
  String.mk (l.map (fun n => Char.ofNat n))

/-- Go `strings.SplitN(s, sep, 2)` as an option: `none` when the separator
does not occur, otherwise the parts before and after its first occurrence. -/
def breakAt {α : Type} [DecidableEq α] (sep : α) : List α → Option (List α × List α)
  | [] => none
  | c :: cs =>
    if c = sep then some ([], cs)
    else Option.map (fun pr => (c :: pr.1, pr.2)) (breakAt sep cs)

/-- `OauthProxy.CheckBasicAuth` on the `Authorization` header, instrumented:
the result pairs the Go `(user, ok)` with a flag telling whether the delegated
validator was invoked.  The header is split at its first space and the first
part must be exactly `Basic`; the rest must decode as standard base64; the
decoded bytes are split at the first colon only, the password keeping any
further colons. -/
def CheckBasicAuth (validator? : Option (String → String → Bool))
    (authHeader : List Char) : (String × Bool) × Bool :=
  match validator? with
  | none => (("", false), false)
  | some validator =>
    match breakAt ' ' authHeader with
    | none => (("", false), false)
    | some (scheme, rest) =>
      if scheme = "Basic".toList then
        match decodeB64 rest with
        | none => (("", false), false)
        | some bytes =>
          match breakAt 58 bytes with
          | none => (("", false), false)
          | some (user, pass) =>
            if validator (natsToString user) (natsToString pass) then
              ((natsToString user, true), true)
            else (("", false), true)
      else (("", false), false)

/-! ## The request dispatch (`ServeHTTP`) -/

/-- `req.SetBasicAuth(user, "")`: the `Authorization` header value. -/
def basicAuthValue (user : String) : String :=
  "Basic " ++ String.mk (encodeB64 (user.toList.map Char.toNat ++ [58]))

/-- The headers attached once a request is forwarded (`ServeHTTP` lines after
"the user is authenticated"): identity request headers under the
`PassBasicAuth` / `PassAccessToken` flags, and the `GAP-Auth` response header
carrying the email when non-empty, else the user. -/
def forwardHeaders (p : OauthProxy) (user email accessToken : String) :
    List (String × String) × List (String × String) :=
  ((if p.PassBasicAuth then
      [("Authorization", basicAuthValue user),
       ("X-Forwarded-User", user),
       ("X-Forwarded-Email", email)]
    else []) ++
   (if p.PassAccessToken then [("X-Forwarded-Access-Token", accessToken)]
    else []),
   [("GAP-Auth", if email = "" then user else email)])

/-- Outcome of one dispatch of `ServeHTTP`.  `redirect` carries the payload
handed to `SetCookie` when one is set; `forward` carries the authenticated
identity and the request/response headers attached before the router runs;
`signIn` and `errorPage` carry the HTTP status written. -/
inductive Outcome where
  | robots
  | ping
  | skipAuthForward
  | errorPage (code : Nat) (title message : String)
  | signIn (code : Nat)
  | redirect (location : String) (cookie : Option String)
  | forward (user email accessToken : String)
      (reqHeaders respHeaders : List (String × String))
deriving Repr, DecidableEq

/-- `OauthProxy.ServeHTTP` as a decision function: the outcome paired with a
flag recording whether code redemption with the provider was attempted.
The branch order is the order of the source: diagnostic paths, skip-auth
patterns, the three OAuth paths, session cookie, Basic-Auth fallback,
denial. -/
def ServeHTTP (p : OauthProxy) (req : Request) (now : Int) : Outcome × Bool :=
  if req.path = robotsPath then (.robots, false)
  else if req.path = pingPath then (.ping, false)
  else if p.compiledRegex.any (fun m => m req.path) then (.skipAuthForward, false)
  else if req.path = signInPath then
    match GetRedirect req with
    | .error e => (.errorPage 500 "Internal Error" e, false)
    | .ok redirect =>
      match ManualSignIn p req with
      | (user, true) => (.redirect redirect (some user), false)
      | (_, false) => (.signIn 200, false)
  else if req.path = oauthStartPath then
    match GetRedirect req with
    | .error e => (.errorPage 500 "Internal Error" e, false)
    | .ok redirect => (.redirect (GetLoginURL p req.host redirect) none, false)
  else if req.path = oauthCallbackPath then
    match req.form? with
    | none => (.errorPage 500 "Internal Error" "form parse error", false)
    | some form =>
      let errorString := formGet form "error"
      if errorString ≠ "" then
        (.errorPage 403 "Permission Denied" errorString, false)
      else
        match redeemCode p req.host (formGet form "code") with
        | .error e => (.errorPage 500 "Internal Error" e, true)
        | .ok (accessToken, email) =>
          let redirect :=
            let s := formGet form "state"
            if s = "" then "/" else s
          if p.Validator email then
            (.redirect redirect (some (p.buildCookieValueFn email accessToken)), true)
          else (.errorPage 403 "Permission Denied" "Invalid Account", true)
  else
    let pc := ProcessCookie p req.cookie? now
    if pc.ok then
      (.forward pc.user pc.email pc.accessToken
        (forwardHeaders p pc.user pc.email pc.accessToken).1
        (forwardHeaders p pc.user pc.email pc.accessToken).2, false)
    else
      match (CheckBasicAuth p.HtpasswdValidator req.authHeader).1 with
      | (user, true) =>
        (.forward user pc.email pc.accessToken
          (forwardHeaders p user pc.email pc.accessToken).1
          (forwardHeaders p user pc.email pc.accessToken).2, false)
      | (_, false) => (.signIn 403, false)

/-! ## Claims about GetLoginURL (C2) -/

/-- A concrete proxy configuration exercising the login-URL construction. -/
def proxyC2 : OauthProxy where
  CookieSecure := false
  CookieExpire := 100
  CookieRefresh := 0
  Validator := fun _ => true
  redirectUrl := ⟨"http", "proxy.example", "/oauth2/callback"⟩
  oauthLoginUrl := ⟨"https", "provider.example", "/auth"⟩
  oauthScope := "profile email"
  clientID := "client-1"
  HtpasswdValidator := none
  PassBasicAuth := false
  PassAccessToken := false
  compiledRegex := []
  providerRedeem := fun _ _ => .error "unused"
  providerGetEmail := fun _ _ => .error "unused"
  providerValidateToken := fun _ => false
  validateCookieFn := fun _ => none
  parseCookieValueFn := fun _ => .error "unused"
  buildCookieValueFn := fun _ _ => ""

/-- **C2** counterexample.  The requested return path `//attacker.example` is
a scheme-relative reference to a foreign host — not a same-site relative
path — yet `GetLoginURL` embeds it as the `state` parameter, because the
source only tests `strings.HasPrefix(redirect, "/")`. -/
theorem loginURL_state_counterexample :
    ("state", "//attacker.example") ∈
      GetLoginURLParams proxyC2 "proxy.example" "//attacker.example" ∧
    specSameSiteRelative "//attacker.example" = false := by
  constructor
  · simp [GetLoginURLParams]
    decide
  · decide

/-- **C2** as amended: the `state` parameter, equal to the requested return
path, is present exactly when that path begins with `/` (which lets through
scheme-relative `//host` targets), and the five fixed parameters
`redirect_uri`, `approval_prompt=force`, `scope`, `client_id` and
`response_type=code` are always present. -/
theorem loginURL_params (p : OauthProxy) (host redirect : String) :
    (("state", redirect) ∈ GetLoginURLParams p host redirect ↔
      hasPrefixGo redirect "/" = true) ∧
    ("redirect_uri", GetRedirectUrl p host) ∈ GetLoginURLParams p host redirect ∧
    ("approval_prompt", "force") ∈ GetLoginURLParams p host redirect ∧
    ("scope", p.oauthScope) ∈ GetLoginURLParams p host redirect ∧
    ("client_id", p.clientID) ∈ GetLoginURLParams p host redirect ∧
    ("response_type", "code") ∈ GetLoginURLParams p host redirect := by
  unfold GetLoginURLParams
  by_cases h : hasPrefixGo redirect "/" <;> simp [h]

/-- **C2** witness: a plain relative path does appear as `state`. -/
theorem loginURL_params_witness :
    ("state", "/next") ∈ GetLoginURLParams proxyC2 "proxy.example" "/next" :=
  (loginURL_params proxyC2 "proxy.example" "/next").1.mpr (by decide)

/-! ## The refresh threshold of ProcessCookie (C4) -/

/-- **C4**.  For a cookie that passed `validateCookie` and `parseCookieValue`,
with `CookieRefresh = R ≠ 0` the refresh branch re-validates exactly when
`now + R > issuedAt + E` (so `issuedAt = now - E + R - 1` is judged stale and
`issuedAt = now - E + R + 1` is not); a re-validation decides `ok` by the
Validator and the provider token check and re-issues the cookie exactly on
success; with `R = 0` no re-validation ever happens. -/
theorem processCookie_refresh (p : OauthProxy)
    (c value email user accessToken : String) (timestamp now : Int)
    (hv : p.validateCookieFn c = some (value, timestamp))
    (hp : p.parseCookieValueFn value = .ok (email, user, accessToken)) :
    (p.CookieRefresh ≠ 0 →
      ((ProcessCookie p (some c) now).revalidated = true ↔
        now + p.CookieRefresh > timestamp + p.CookieExpire) ∧
      ((ProcessCookie p (some c) now).revalidated = true →
        (ProcessCookie p (some c) now).ok =
          (p.Validator email && p.providerValidateToken accessToken) ∧
        (ProcessCookie p (some c) now).reissued = (ProcessCookie p (some c) now).ok) ∧
      (timestamp = now - p.CookieExpire + p.CookieRefresh - 1 →
        (ProcessCookie p (some c) now).revalidated = true) ∧
      (timestamp = now - p.CookieExpire + p.CookieRefresh + 1 →
        (ProcessCookie p (some c) now).revalidated = false)) ∧
    (p.CookieRefresh = 0 → (ProcessCookie p (some c) now).revalidated = false) := by
  simp only [ProcessCookie, hv, hp]
  constructor
  · intro hR
    refine ⟨?_, ?_, ?_, ?_⟩ <;> simp only [refreshStep, if_pos hR]
    · by_cases hth : timestamp + p.CookieExpire < now + p.CookieRefresh
      · rw [if_pos hth]
        simpa using hth
      · rw [if_neg hth]
        simpa using hth
    · intro hrev
      by_cases hth : timestamp + p.CookieExpire < now + p.CookieRefresh
      · rw [if_pos hth]
        exact ⟨rfl, rfl⟩
      · rw [if_neg hth] at hrev
        exact absurd hrev (by simp)
    · intro hts
      subst hts
      rw [if_pos (by omega)]
    · intro hts
      subst hts
      rw [if_neg (by omega)]
  · intro hR
    simp only [refreshStep]
    rw [if_neg (by simp [hR])]

/-- A concrete proxy whose cookie sits exactly one second inside the stale
window (`E = 100`, `R = 10`, `now = 1000`, `issuedAt = 909`). -/
def proxyC4 : OauthProxy :=
  { proxyC2 with
    CookieExpire := 100
    CookieRefresh := 10
    validateCookieFn := fun _ => some ("payload", 909)
    parseCookieValueFn := fun _ => .ok ("e@example.com", "e", "tok")
    providerValidateToken := fun _ => true }

/-- **C4** witness: at `issuedAt = now - E + R - 1` the session is revalidated. -/
theorem processCookie_refresh_witness :
    (ProcessCookie proxyC4 (some "cookie") 1000).revalidated = true :=
  ((processCookie_refresh proxyC4 "cookie" "payload" "e@example.com" "e" "tok"
    909 1000 rfl rfl).1 (by decide)).2.2.1 (by decide)

/-! ## The dispatch claims (C3, C7, C8) -/

/-- **C8**.  When a request hits none of the diagnostic, skip-auth or OAuth
branches and neither the session cookie nor the Basic-Auth fallback produces
an authenticated identity, `ServeHTTP` renders the sign-in page with
status 403 — it never falls through silently. -/
theorem serveHTTP_denied (p : OauthProxy) (req : Request) (now : Int)
    (h1 : req.path ≠ robotsPath) (h2 : req.path ≠ pingPath)
    (h3 : p.compiledRegex.any (fun m => m req.path) = false)
    (h4 : req.path ≠ signInPath) (h5 : req.path ≠ oauthStartPath)
    (h6 : req.path ≠ oauthCallbackPath)
    (h7 : (ProcessCookie p req.cookie? now).ok = false)
    (h8 : (CheckBasicAuth p.HtpasswdValidator req.authHeader).1.2 = false) :
    ServeHTTP p req now = (.signIn 403, false) := by
  rcases hcb : (CheckBasicAuth p.HtpasswdValidator req.authHeader).1 with ⟨u, b⟩
  rw [hcb] at h8
  simp only at h8
  subst h8
  simp [ServeHTTP, h1, h2, h3, h4, h5, h6, h7, hcb]

/-- A proxy with no session codec and no delegated validator: every request
outside the fixed paths is denied. -/
def proxyC8 : OauthProxy := proxyC2

/-- A plain unauthenticated request. -/
def reqC8 : Request where
  method := "GET"
  path := "/private"
  host := "proxy.example"
  form? := some []
  cookie? := none
  authHeader := []

/-- **C8** witness. -/
theorem serveHTTP_denied_witness : ServeHTTP proxyC8 reqC8 0 = (.signIn 403, false) :=
  serveHTTP_denied proxyC8 reqC8 0 (by decide) (by decide) rfl (by decide)
    (by decide) (by decide) rfl rfl

/-- **C3**.  The dispatch order of `ServeHTTP`: the diagnostic paths win over
everything (a skip-auth match included); a skip-auth match on any other path
forwards the request with no identity check at all; and a callback request
carrying a non-empty `error` form value receives the 403 error page with the
redemption flag still `false` — code redemption is never attempted. -/
theorem serveHTTP_precedence (p : OauthProxy) (req : Request) (now : Int) :
    (req.path = robotsPath → ServeHTTP p req now = (.robots, false)) ∧
    (req.path ≠ robotsPath → req.path = pingPath →
      ServeHTTP p req now = (.ping, false)) ∧
    (req.path ≠ robotsPath → req.path ≠ pingPath →
      p.compiledRegex.any (fun m => m req.path) = true →
      ServeHTTP p req now = (.skipAuthForward, false)) ∧
    (∀ form, req.path = oauthCallbackPath →
      p.compiledRegex.any (fun m => m req.path) = false →
      req.form? = some form → formGet form "error" ≠ "" →
      ServeHTTP p req now =
        (.errorPage 403 "Permission Denied" (formGet form "error"), false)) := by
  refine ⟨?_, ?_, ?_, ?_⟩
  · intro h
    simp [ServeHTTP, h]
  · intro h1 h2
    simp [ServeHTTP, h1, h2, robotsPath, pingPath]
  · intro h1 h2 h3
    simp [ServeHTTP, h1, h2, h3]
  · intro form hpath h3 hform herr
    rw [hpath] at h3
    simp [ServeHTTP, hpath, h3, hform, herr, robotsPath, pingPath, signInPath,
      oauthStartPath, oauthCallbackPath]
    simpa using h3

/-- A proxy whose only skip-auth pattern matches every path that begins with
`/static/` (standing in for a compiled regular expression). -/
def proxyC3 : OauthProxy :=
  { proxyC2 with compiledRegex := [fun s => hasPrefixGo s "/static/"] }

/-- A callback request in which the provider reported an error. -/
def reqC3 : Request where
  method := "GET"
  path := "/oauth2/callback"
  host := "proxy.example"
  form? := some [("error", "access_denied"), ("code", "c0")]
  cookie? := none
  authHeader := []

/-- **C3** witness: the error-carrying callback gets the 403 page and no
redemption is attempted. -/
theorem serveHTTP_precedence_witness :
    ServeHTTP proxyC3 reqC3 0 =
      (.errorPage 403 "Permission Denied" "access_denied", false) :=
  (serveHTTP_precedence proxyC3 reqC3 0).2.2.2
    [("error", "access_denied"), ("code", "c0")] rfl (by decide) rfl (by decide)

/-- A proxy whose cookie codec accepts a fixed session and that passes
neither Basic-Auth nor access-token headers (both flags off), with refresh
disabled. -/
def proxyC7 : OauthProxy :=
  { proxyC2 with
    PassBasicAuth := false
    PassAccessToken := false
    validateCookieFn := fun _ => some ("payload", 0)
    parseCookieValueFn := fun _ => .ok ("alice@example.com", "alice", "tok") }

/-- A request carrying that session cookie to an ordinary path. -/
def reqC7 : Request where
  method := "GET"
  path := "/app"
  host := "proxy.example"
  form? := some []
  cookie? := some "cookie"
  authHeader := []

/-- **C7** counterexample.  A request that reaches the FORWARD state through
a valid session cookie is forwarded with NO identity request headers at all
when `PassBasicAuth` and `PassAccessToken` are off — `X-Forwarded-User`,
`X-Forwarded-Email` and `X-Forwarded-Access-Token` are flag-dependent, not
unconditional; only the `GAP-Auth` response header is always set. -/
theorem serveHTTP_forward_counterexample :
    ServeHTTP proxyC7 reqC7 5 =
      (.forward "alice" "alice@example.com" "tok" []
        [("GAP-Auth", "alice@example.com")], false) := by
  decide

/-- **C7** as amended: the forwarded request carries `X-Forwarded-User` and
`X-Forwarded-Email` exactly when `PassBasicAuth` is set and
`X-Forwarded-Access-Token` exactly when `PassAccessToken` is set, while the
response always carries `GAP-Auth` with the email when non-empty and the user
otherwise; and every FORWARD outcome of `ServeHTTP` carries exactly the
headers of `forwardHeaders`. -/
theorem forward_headers_flags (p : OauthProxy) (user email accessToken : String) :
    ((("X-Forwarded-User", user) ∈ (forwardHeaders p user email accessToken).1) ↔
      p.PassBasicAuth = true) ∧
    ((("X-Forwarded-Email", email) ∈ (forwardHeaders p user email accessToken).1) ↔
      p.PassBasicAuth = true) ∧
    ((("X-Forwarded-Access-Token", accessToken) ∈
        (forwardHeaders p user email accessToken).1) ↔ p.PassAccessToken = true) ∧
    ("GAP-Auth", if email = "" then user else email) ∈
      (forwardHeaders p user email accessToken).2 ∧
    (∀ req now u e t rH sH flag,
      ServeHTTP p req now = (.forward u e t rH sH, flag) →
      rH = (forwardHeaders p u e t).1 ∧ sH = (forwardHeaders p u e t).2) := by
  refine ⟨?_, ?_, ?_, ?_, ?_⟩
  · cases hb : p.PassBasicAuth <;> cases ht : p.PassAccessToken <;>
      simp [forwardHeaders, hb, ht]
  · cases hb : p.PassBasicAuth <;> cases ht : p.PassAccessToken <;>
      simp [forwardHeaders, hb, ht]
  · cases hb : p.PassBasicAuth <;> cases ht : p.PassAccessToken <;>
      simp [forwardHeaders, hb, ht]
  · simp [forwardHeaders]
  · intro req now u e t rH sH flag h
    simp only [ServeHTTP] at h
    split at h
    · simp at h
    · split at h
      · simp at h
      · split at h
        · simp at h
        · split at h
          · split at h
            · simp at h
            · split at h
              · simp at h
              · simp at h
          · split at h
            · split at h
              · simp at h
              · simp at h
            · split at h
              · split at h
                · simp at h
                · split at h
                  · simp at h
                  · split at h
                    · simp at h
                    · split at h
                      · simp at h
                      · simp at h
              · split at h
                · simp only [Prod.mk.injEq, Outcome.forward.injEq] at h
                  obtain ⟨⟨h1, h2, h3, h4, h5⟩, -⟩ := h
                  subst h1; subst h2; subst h3
                  exact ⟨h4.symm, h5.symm⟩
                · split at h
                  · simp only [Prod.mk.injEq, Outcome.forward.injEq] at h
                    obtain ⟨⟨h1, h2, h3, h4, h5⟩, -⟩ := h
                    subst h1; subst h2; subst h3
                    exact ⟨h4.symm, h5.symm⟩
                  · simp at h

/-- **C7** witness for the amended theorem: with both flags on, all three
identity headers are attached. -/
theorem forward_headers_flags_witness :
    ("X-Forwarded-User", "bob") ∈
      (forwardHeaders { proxyC2 with PassBasicAuth := true, PassAccessToken := true }
        "bob" "bob@example.com" "tok2").1 :=
  (forward_headers_flags
    { proxyC2 with PassBasicAuth := true, PassAccessToken := true }
    "bob" "bob@example.com" "tok2").1.mpr rfl

/-! ## The Basic-Auth fallback (C10) -/

/-- Characterisation of `breakAt`: it answers `some (a, b)` exactly when the
input is `a ++ sep :: b` with the separator absent from `a` — the split is at
the first occurrence, `b` keeping any further separators intact. -/
theorem breakAt_eq_some {α : Type} [DecidableEq α] (sep : α) :
    ∀ (l a b : List α), breakAt sep l = some (a, b) ↔ l = a ++ sep :: b ∧ sep ∉ a := by
  intro l
  induction l with
  | nil =>
    intro a b
    constructor
    · intro h
      exact absurd h (by simp [breakAt])
    · rintro ⟨h, -⟩
      exact absurd h (by simp)
  | cons c cs ih =>
    intro a b
    constructor
    · intro h
      by_cases hc : c = sep
      · subst hc
        simp [breakAt] at h
        obtain ⟨rfl, rfl⟩ := h
        exact ⟨rfl, by simp⟩
      · simp only [breakAt, if_neg hc] at h
        cases hres : breakAt sep cs with
        | none => rw [hres] at h; simp at h
        | some pr =>
          rw [hres] at h
          simp only [Option.map_some', Option.some.injEq] at h
          obtain ⟨hcs, hnot⟩ := (ih pr.1 pr.2).mp (by rw [hres])
          have ha : a = c :: pr.1 := by
            have := congrArg Prod.fst h
            simpa using this.symm
          have hb : b = pr.2 := by
            have := congrArg Prod.snd h
            simpa using this.symm
          subst ha
          subst hb
          refine ⟨by rw [hcs]; rfl, ?_⟩
          intro hmem
          rcases List.mem_cons.mp hmem with h1 | h2
          · exact hc h1.symm
          · exact hnot h2
    · rintro ⟨hl, hna⟩
      cases a with
      | nil =>
        simp only [List.nil_append, List.cons.injEq] at hl
        obtain ⟨h1, h2⟩ := hl
        subst h1
        subst h2
        simp [breakAt]
      | cons a0 as =>
        simp only [List.cons_append, List.cons.injEq] at hl
        obtain ⟨h1, h2⟩ := hl
        subst h1
        have hcsep : c ≠ sep := by
          intro hh
          exact hna (by rw [hh]; exact List.mem_cons_self _ _)
        have hnas : sep ∉ as := fun hm => hna (List.mem_cons_of_mem _ hm)
        simp only [breakAt, if_neg hcsep]
        rw [(ih as b).mpr ⟨h2, hnas⟩]
        rfl

/-- The character list of the `Basic ` marker splits off as scheme plus
space. -/
theorem basicMarker_split :
    ("Basic ".toList : List Char) = "Basic".toList ++ [' '] := by decide

/-- **C10**.  `CheckBasicAuth` invokes the delegated validator exactly when
one is configured, the header is `Basic ` followed by the rest of the header,
that rest decodes as standard base64, and the decoded bytes contain a colon
(byte 58).  In that case the bytes split at the first colon only — the
password keeps any further colons — and the result is the decoded user with
`true` on validation success and `("", false)` on failure.  Whenever the
validator is not invoked (not configured, malformed header, bad base64, no
colon), the result is `("", false)` with no side effect. -/
theorem checkBasicAuth_complete (validator? : Option (String → String → Bool))
    (h : List Char) :
    ((CheckBasicAuth validator? h).2 = true ↔
      ∃ validator rest bytes user pass,
        validator? = some validator ∧
        h = "Basic ".toList ++ rest ∧
        decodeB64 rest = some bytes ∧
        breakAt 58 bytes = some (user, pass)) ∧
    (∀ validator rest bytes user pass,
      validator? = some validator →
      h = "Basic ".toList ++ rest →
      decodeB64 rest = some bytes →
      breakAt 58 bytes = some (user, pass) →
      bytes = user ++ 58 :: pass ∧ (58 : Nat) ∉ user ∧
      CheckBasicAuth validator? h =
        (if validator (natsToString user) (natsToString pass) then
          (natsToString user, true) else ("", false), true)) ∧
    ((CheckBasicAuth validator? h).2 = false →
      (CheckBasicAuth validator? h).1 = ("", false)) := by
  have hmarker : ∀ rest : List Char,
      "Basic ".toList ++ rest = "Basic".toList ++ ' ' :: rest := by
    intro rest
    rw [basicMarker_split, List.append_assoc]
    rfl
  have hspace : (' ' : Char) ∉ "Basic".toList := by decide
  refine ⟨?_, ?_, ?_⟩
  · constructor
    · intro hinv
      match validator? with
      | none => exact absurd hinv (by simp [CheckBasicAuth])
      | some validator =>
        cases hbr : breakAt ' ' h with
        | none => simp [CheckBasicAuth, hbr] at hinv
        | some pr =>
          obtain ⟨scheme, rest⟩ := pr
          by_cases hs : scheme = "Basic".toList
          · cases hdec : decodeB64 rest with
            | none => simp [CheckBasicAuth, hbr, hs, hdec] at hinv
            | some bytes =>
              cases hsp : breakAt 58 bytes with
              | none => simp [CheckBasicAuth, hbr, hs, hdec, hsp] at hinv
              | some up =>
                obtain ⟨user, pass⟩ := up
                refine ⟨validator, rest, bytes, user, pass, rfl, ?_, hdec, hsp⟩
                obtain ⟨hh, -⟩ := (breakAt_eq_some ' ' h scheme rest).mp hbr
                rw [hh, hs, ← hmarker]
          · have hs2 : ¬ scheme = ['B', 'a', 's', 'i', 'c'] := by simpa using hs
            simp [CheckBasicAuth, hbr, hs2] at hinv
    · rintro ⟨validator, rest, bytes, user, pass, hv, hh, hdec, hsp⟩
      subst hv
      have hbr : breakAt ' ' h = some ("Basic".toList, rest) :=
        (breakAt_eq_some ' ' h "Basic".toList rest).mpr ⟨by rw [hh, hmarker], hspace⟩
      by_cases hval : validator (natsToString user) (natsToString pass) <;>
        simp [CheckBasicAuth, hbr, hdec, hsp, hval]
  · intro validator rest bytes user pass hv hh hdec hsp
    subst hv
    obtain ⟨hbytes, hncolon⟩ := (breakAt_eq_some 58 bytes user pass).mp hsp
    have hbr : breakAt ' ' h = some ("Basic".toList, rest) :=
      (breakAt_eq_some ' ' h "Basic".toList rest).mpr ⟨by rw [hh, hmarker], hspace⟩
    refine ⟨hbytes, hncolon, ?_⟩
    by_cases hval : validator (natsToString user) (natsToString pass) <;>
      simp [CheckBasicAuth, hbr, hdec, hsp, hval]
  · intro hfalse
    match validator? with
    | none => simp [CheckBasicAuth]
    | some validator =>
      cases hbr : breakAt ' ' h with
      | none => simp [CheckBasicAuth, hbr]
      | some pr =>
        obtain ⟨scheme, rest⟩ := pr
        by_cases hs : scheme = "Basic".toList
        · cases hdec : decodeB64 rest with
          | none => simp [CheckBasicAuth, hbr, hs, hdec]
          | some bytes =>
            cases hsp : breakAt 58 bytes with
            | none => simp [CheckBasicAuth, hbr, hs, hdec, hsp]
            | some up =>
              obtain ⟨user, pass⟩ := up
              by_cases hval : validator (natsToString user) (natsToString pass) <;>
                simp [CheckBasicAuth, hbr, hs, hdec, hsp, hval] at hfalse
        · have hs2 : ¬ scheme = ['B', 'a', 's', 'i', 'c'] := by simpa using hs
          simp [CheckBasicAuth, hbr, hs2]

/-- **C10** witness: a well-formed header whose password itself contains a
colon (`user:pa:ss`) invokes the validator with the password intact. -/
theorem checkBasicAuth_complete_witness :
    ([117, 115, 101, 114, 58, 112, 97, 58, 115, 115] : List Nat) =
      [117, 115, 101, 114] ++ 58 :: [112, 97, 58, 115, 115] ∧
    (58 : Nat) ∉ ([117, 115, 101, 114] : List Nat) ∧
    CheckBasicAuth (some (fun u p => u == "user" && p == "pa:ss"))
      "Basic dXNlcjpwYTpzcw==".toList =
      (if (fun u p : String => u == "user" && p == "pa:ss")
          (natsToString [117, 115, 101, 114]) (natsToString [112, 97, 58, 115, 115]) then
        (natsToString [117, 115, 101, 114], true) else ("", false), true) :=
  (checkBasicAuth_complete (some (fun u p => u == "user" && p == "pa:ss"))
      "Basic dXNlcjpwYTpzcw==".toList).2.1
    (fun u p => u == "user" && p == "pa:ss") "dXNlcjpwYTpzcw==".toList
    [117, 115, 101, 114, 58, 112, 97, 58, 115, 115]
    [117, 115, 101, 114] [112, 97, 58, 115, 115]
    rfl (by decide) (by decide) (by decide)

end GoogleAuthProxy
